import Mathlib

/-!
Verification of the QuantAgrify hybrid market-data backend
(`backend/main.py`). The Python source is shallowly embedded: strings are
lists of characters, pandas data frames are lists of rows, outcomes of
network calls are supplied by explicit environment records, and exceptions
are modelled by `Option`/`Except` values or by the control flow that the
`try`/`except` blocks of the source induce.
-/

namespace QuantAgrify

/-- Strings of the Python source are modelled as lists of characters. -/
abbrev Chars := List Char

/-- Shorthand turning a Lean string literal into the character-list model. -/
def str (s : String) : Chars := s.data

/-- Characters removed by Python `str.strip()` (ASCII whitespace). -/
def isPySpace (c : Char) : Bool :=
  c = ' ' || c = '\t' || c = '\n' || c = '\r' || c = '\x0b' || c = '\x0c'

/-- Python `s.strip()`: drop whitespace from both ends. -/
def pyStrip (s : Chars) : Chars :=
  ((s.dropWhile isPySpace).reverse.dropWhile isPySpace).reverse

/-- `normalize_bq_symbol` (main.py lines 399-407): `if not symbol: return ""`,
then `symbol.strip()`. -/
def normalize_bq_symbol (s : Chars) : Chars :=
  if s = [] then [] else pyStrip s

/-- Root-symbol extraction (main.py line 423):
`bq_symbol.split('.')[0] if '.' in bq_symbol else bq_symbol`. -/
def rootSymbol (s : Chars) : Chars :=
  if '.' ∈ s then s.takeWhile (fun c => c ≠ '.') else s

/-- Does `p` occur at the start of `l`? -/
def startsWithChars : Chars → Chars → Bool
  | [], _ => true
  | _ :: _, [] => false
  | p :: ps, c :: cs => p = c && startsWithChars ps cs

/-- Does `pat` occur as a contiguous substring of the second argument?
Models SQL `contract LIKE '%pat%'` for a pattern without wildcards. -/
def containsChars (pat : Chars) : Chars → Bool
  | [] => pat = []
  | c :: cs => startsWithChars pat (c :: cs) || containsChars pat cs

/-- Calendar dates, the result of `datetime.strptime(...).date()`. -/
structure Date where
  year : Nat
  month : Nat
  day : Nat
deriving DecidableEq, Repr

/-- Gregorian leap-year rule, as used by Python `datetime`. -/
def isLeapYear (y : Nat) : Bool :=
  (y % 4 = 0 && y % 100 ≠ 0) || y % 400 = 0

/-- Number of days of a month. -/
def daysInMonth (y m : Nat) : Nat :=
  if m = 2 then (if isLeapYear y then 29 else 28)
  else if m = 4 ∨ m = 6 ∨ m = 9 ∨ m = 11 then 30
  else 31

/-- `datetime + timedelta(days=1)`, projected to the calendar date. -/
def addOneDay (d : Date) : Date :=
  if d.day < daysInMonth d.year d.month then ⟨d.year, d.month, d.day + 1⟩
  else if d.month < 12 then ⟨d.year, d.month + 1, 1⟩
  else ⟨d.year + 1, 1, 1⟩

/-- Comparison `a <= b` on calendar dates (`datetime.date` ordering). -/
def dateLe (a b : Date) : Bool :=
  if a.year < b.year then true
  else if b.year < a.year then false
  else if a.month < b.month then true
  else if b.month < a.month then false
  else decide (a.day ≤ b.day)

/-- Numeric value of a decimal digit character. -/
def digitVal (c : Char) : Nat := c.toNat - 48

/-- Decimal reading of a digit string. -/
def digitsToNat (cs : Chars) : Nat :=
  cs.foldl (fun a c => a * 10 + digitVal c) 0

/-- One numeric field of `strptime`: 1 to `maxLen` decimal digits. -/
def parseNum (maxLen : Nat) (cs : Chars) : Option Nat :=
  if cs ≠ [] ∧ cs.length ≤ maxLen ∧ cs.all Char.isDigit then some (digitsToNat cs)
  else none

/-- `datetime.strptime(s, "%Y-%m-%d")`, returning the calendar date, `none`
when the call would raise. -/
def parseDateOnly (cs : Chars) : Option Date :=
  match cs.splitOn '-' with
  | [y, m, d] =>
    match parseNum 4 y, parseNum 2 m, parseNum 2 d with
    | some yn, some mn, some dn =>
      if 1 ≤ mn ∧ mn ≤ 12 ∧ 1 ≤ dn ∧ dn ≤ daysInMonth yn mn then some ⟨yn, mn, dn⟩
      else none
    | _, _, _ => none
  | _ => none

/-- Validity of the `%H:%M:%S` part of `strptime`. -/
def parseTimeOk (cs : Chars) : Bool :=
  match cs.splitOn ':' with
  | [h, m, s] =>
    match parseNum 2 h, parseNum 2 m, parseNum 2 s with
    | some hn, some mn, some sn => decide (hn ≤ 23 ∧ mn ≤ 59 ∧ sn ≤ 59)
    | _, _, _ => false
  | _ => false

/-- `datetime.strptime(s, "%Y-%m-%d %H:%M:%S")`, projected to its calendar
date (only the date part is used downstream; adding one day to a naive
datetime advances the calendar date by exactly one). -/
def parseDateTime (cs : Chars) : Option Date :=
  match cs.splitOn ' ' with
  | [d, t] => if parseTimeOk t then parseDateOnly d else none
  | _ => none

/-- Parsing of the last archive date (main.py lines 512-515): a string with a
space is parsed with the date-time format, otherwise with the date format. -/
def parseLastDate (cs : Chars) : Option Date :=
  if ' ' ∈ cs then parseDateTime cs else parseDateOnly cs

/-- A decimal digit, for `strftime` zero padding. -/
def digitChar : Nat → Char
  | 0 => '0' | 1 => '1' | 2 => '2' | 3 => '3' | 4 => '4'
  | 5 => '5' | 6 => '6' | 7 => '7' | 8 => '8' | _ => '9'

/-- Two-digit zero-padded rendering. -/
def pad2 (n : Nat) : Chars := [digitChar (n / 10 % 10), digitChar (n % 10)]

/-- Four-digit zero-padded rendering. -/
def pad4 (n : Nat) : Chars :=
  [digitChar (n / 1000 % 10), digitChar (n / 100 % 10), digitChar (n / 10 % 10),
   digitChar (n % 10)]

/-- `strftime("%Y-%m-%d")`. -/
def formatDate (d : Date) : Chars :=
  pad4 d.year ++ '-' :: pad2 d.month ++ '-' :: pad2 d.day

/-- One OHLCV row of a pandas data frame, as returned to the caller.
Prices and volume are modelled as integers (the claims only compare
concrete values). -/
structure Bar where
  date : Chars
  «open» : Int
  high : Int
  low : Int
  close : Int
  volume : Int
deriving DecidableEq, Repr

/-- Gap detection (main.py lines 504-526): given the archive rows and the
requested range, decide whether the live feed is needed and from which
start date. Returns `(needs_jq, jq_start_date)`. A parse failure is caught
by the surrounding `except` and leaves the defaults `(true, start_date)`. -/
def computeGap (bqRows : List Bar) (startDate endDate : Chars) : Bool × Chars :=
  match bqRows.getLast? with
  | none => (true, startDate)
  | some lastRow =>
    match parseLastDate lastRow.date, parseDateOnly endDate with
    | some lastD, some endD =>
      if dateLe endD lastD then (false, startDate)
      else (true, formatDate (addOneDay lastD))
    | _, _ => (true, startDate)

/-- One stored minute bar of the `futures_1min` warehouse table. `dayStr` and
`minuteStr` are the two renderings `FORMAT_TIMESTAMP('%Y-%m-%d', ts)` and
`FORMAT_TIMESTAMP('%Y-%m-%d %H:%M:%S', ts)` of the timestamp column. -/
structure ArchiveRow where
  contract : Chars
  ts : Nat
  dayStr : Chars
  minuteStr : Chars
  «open» : Int
  high : Int
  low : Int
  close : Int
  volume : Int
deriving DecidableEq, Repr

/-- The `WHERE` clause of both warehouse queries (main.py lines 457-459 and
473-475): `contract LIKE '%{root_symbol}%'` together with the timestamp
range bounds. `lo` and `hi` model `TIMESTAMP(start_date)` and
`TIMESTAMP_ADD(TIMESTAMP(end_date), INTERVAL 1 DAY)`. -/
def rowSelected (root : Chars) (lo hi : Nat) (r : ArchiveRow) : Bool :=
  containsChars root r.contract && decide (lo ≤ r.ts) && decide (r.ts < hi)

/-- The row set admitted by the `WHERE` clause. -/
def selectRows (tbl : List ArchiveRow) (root : Chars) (lo hi : Nat) : List ArchiveRow :=
  tbl.filter (rowSelected root lo hi)

/-- Ordering of archive rows by the timestamp column. -/
def rowTsLe (a b : ArchiveRow) : Prop := a.ts ≤ b.ts

instance : DecidableRel rowTsLe := fun a b => Nat.decLe a.ts b.ts

instance : IsTotal ArchiveRow rowTsLe := ⟨fun a b => Nat.le_total a.ts b.ts⟩

instance : IsTrans ArchiveRow rowTsLe := ⟨fun _ _ _ h1 h2 => Nat.le_trans h1 h2⟩

/-- Ordering of date-key strings (lexicographic, as Python compares the
`date` strings when pandas sorts them). -/
def chLe (a b : Chars) : Prop := a ≤ b

instance : DecidableRel chLe := fun a b => inferInstanceAs (Decidable (a ≤ b))

instance : IsTotal Chars chLe := ⟨fun a b => le_total a b⟩

instance : IsTrans Chars chLe := ⟨fun _ _ _ h1 h2 => le_trans h1 h2⟩

/-- The raw 1-minute query (main.py lines 468-478): selected rows ordered by
timestamp ascending, capped at 50000, with the minute-precision date
string. -/
def rawQuery (tbl : List ArchiveRow) (root : Chars) (lo hi : Nat) : List Bar :=
  ((List.insertionSort rowTsLe (selectRows tbl root lo hi)).take 50000).map
    (fun r => ⟨r.minuteStr, r.«open», r.high, r.low, r.close, r.volume⟩)

/-- Distinct elements of a list in first-occurrence order (the `GROUP BY`
keys). -/
def distinctAux (acc : List Chars) : List Chars → List Chars
  | [] => acc.reverse
  | d :: ds => if d ∈ acc then distinctAux acc ds else distinctAux (d :: acc) ds

/-- Distinct date keys of the selected rows. -/
def distinctDates (l : List Chars) : List Chars := distinctAux [] l

/-- The selected row of minimal timestamp (first by tie), for
`ARRAY_AGG(open ORDER BY timestamp_field_0 ASC LIMIT 1)`. -/
def minTsRow (grp : List ArchiveRow) : Option ArchiveRow :=
  grp.foldl
    (fun best r =>
      match best with
      | none => some r
      | some b => if r.ts < b.ts then some r else some b)
    none

/-- The selected row of maximal timestamp, for
`ARRAY_AGG(close ORDER BY timestamp_field_0 DESC LIMIT 1)`. -/
def maxTsRow (grp : List ArchiveRow) : Option ArchiveRow :=
  grp.foldl
    (fun best r =>
      match best with
      | none => some r
      | some b => if b.ts < r.ts then some r else some b)
    none

/-- Fold of a list of integers by a binary operation, starting from the head. -/
def foldInt (f : Int → Int → Int) (dflt : Int) : List Int → Int
  | [] => dflt
  | x :: xs => xs.foldl f x

/-- One aggregated group of the daily query (main.py lines 448-462): first
open, `MAX(high)`, `MIN(low)`, last close, `SUM(volume)` over the rows of
one calendar date. -/
def aggDay (sel : List ArchiveRow) (d : Chars) : Bar :=
  let grp := sel.filter (fun r => decide (r.dayStr = d))
  { date := d
    «open» := (match minTsRow grp with | some r => r.«open» | none => 0)
    high := foldInt max 0 (grp.map (·.high))
    low := foldInt min 0 (grp.map (·.low))
    close := (match maxTsRow grp with | some r => r.close | none => 0)
    volume := (grp.map (·.volume)).foldl (· + ·) 0 }

/-- The daily aggregation query: one output row per distinct calendar date
among the selected rows (grouping key is the date string alone, not the
contract), ordered ascending by date string. -/
def dailyAggQuery (tbl : List ArchiveRow) (root : Chars) (lo hi : Nat) : List Bar :=
  let sel := selectRows tbl root lo hi
  (List.insertionSort chLe (distinctDates (sel.map (·.dayStr)))).map (aggDay sel)

/-- Ordering of result bars by their date key. -/
def barDateLe (a b : Bar) : Prop := a.date ≤ b.date

instance : DecidableRel barDateLe := fun a b => inferInstanceAs (Decidable (a.date ≤ b.date))

instance : IsTotal Bar barDateLe := ⟨fun a b => le_total a.date b.date⟩

instance : IsTrans Bar barDateLe := ⟨fun _ _ _ h1 h2 => le_trans h1 h2⟩

/-- pandas `drop_duplicates(subset=['date'], keep='last')`: a row is kept
exactly when no later row carries the same date key. -/
def dropDuplicatesKeepLast : List Bar → List Bar
  | [] => []
  | r :: rs =>
    if rs.any (fun x => decide (x.date = r.date)) then dropDuplicatesKeepLast rs
    else r :: dropDuplicatesKeepLast rs

/-- The fusion step of main.py lines 554-556 for two non-empty frames:
`pd.concat`, `drop_duplicates(subset=['date'], keep='last')` (live rows
come second, so they win), `sort_values(by='date')`. -/
def mergeBqJq (bqRows jqRows : List Bar) : List Bar :=
  List.insertionSort barDateLe (dropDuplicatesKeepLast (bqRows ++ jqRows))

/-- The inbound request (`PriceRequest`, main.py lines 208-215). -/
structure PriceRequest where
  username : String
  password : String
  symbol : Chars
  frequency : String
  start_date : Option Chars
  end_date : Option Chars
deriving DecidableEq, Repr

/-- Count of live-feed side effects performed while serving one request. -/
structure JqTrace where
  authCalls : Nat
  fetchCalls : Nat
  fetchFreq : Option String
  fetchStart : Option Chars
deriving DecidableEq, Repr

/-- External world of one request: backend readiness, warehouse content,
timestamp bounds of the requested range, and the outcomes the JQData SDK
would produce. `jqFetch2` is what a second `get_price` call would return;
the source never makes one. -/
structure HybridEnv where
  bqReady : Bool
  bqThrows : Bool
  table : List ArchiveRow
  tsLo : Nat
  tsHi : Nat
  jqAvailable : Bool
  jqIsAuth : Bool
  jqAuthOk : Bool
  jqFetch1 : Except String (List Bar)
  jqFetch2 : Except String (List Bar)
  defaultStart : Chars
  defaultEnd : Chars
deriving Repr

/-- Truthiness of `payload.username and payload.password`. -/
def hasCreds (p : PriceRequest) : Bool :=
  decide (p.username ≠ "") && decide (p.password ≠ "")

/-- `frequency = payload.frequency or 'daily'` (main.py line 427). -/
def effFrequency (p : PriceRequest) : String :=
  if p.frequency = "" then "daily" else p.frequency

/-- Branch test of main.py line 444: the aggregation query runs only for
`'daily'` or `'1d'`. -/
def bqIsAgg (freq : String) : Bool :=
  decide (freq = "daily") || decide (freq = "1d")

/-- Label suffix chosen with the query (main.py lines 463 and 479). -/
def bqLabelSuffix (freq : String) : String :=
  if bqIsAgg freq then "(Aggregated)" else "(Raw 1min)"

/-- Frequency passed to `jq.get_price` (main.py line 537):
`'1m' if frequency in ['1m', 'minute'] else 'daily'`. -/
def jqMappedFreq (freq : String) : String :=
  if freq = "1m" ∨ freq = "minute" then "1m" else "daily"

/-- The root symbol the request queries the warehouse with. -/
def rootOf (p : PriceRequest) : Chars :=
  rootSymbol (normalize_bq_symbol p.symbol)

/-- Requested start date after the 365-day default (main.py lines 429-430). -/
def reqStart (env : HybridEnv) (p : PriceRequest) : Chars :=
  p.start_date.getD env.defaultStart

/-- Requested end date after the today default (main.py lines 431-432). -/
def reqEnd (env : HybridEnv) (p : PriceRequest) : Chars :=
  p.end_date.getD env.defaultEnd

/-- Phase 1 (main.py lines 437-502): the archive frame. Empty when the
client is not ready, when the query raises (caught and logged), or when it
returns zero rows. -/
def bqRowsOf (env : HybridEnv) (p : PriceRequest) : List Bar :=
  if env.bqReady && !env.bqThrows then
    (if bqIsAgg (effFrequency p) then dailyAggQuery env.table (rootOf p) env.tsLo env.tsHi
     else rawQuery env.table (rootOf p) env.tsLo env.tsHi)
  else []

/-- `source_label` after phase 1: default `"JQData (Live)"`, replaced by the
archive label when rows arrived (main.py lines 435 and 497). -/
def phase1Label (bqRows : List Bar) (freq : String) : String :=
  if bqRows = [] then "JQData (Live)" else "BigQuery " ++ bqLabelSuffix freq

/-- Gap detection of the request. -/
def gapOf (env : HybridEnv) (p : PriceRequest) : Bool × Chars :=
  computeGap (bqRowsOf env p) (reqStart env p) (reqEnd env p)

/-- The JQData block (main.py lines 529-548), wrapped in one `try`/`except`:
authenticate only when `not jq.is_auth()` and credentials are supplied
(an auth failure raises and aborts the block); fetch once when
authenticated; any fetch failure is caught, leaving the live frame empty.
There is no retry. Returns the live frame and the side-effect trace. -/
def jqPhase (env : HybridEnv) (cr needsJq : Bool) (jqStart : Chars) (jqFreq : String) :
    List Bar × JqTrace :=
  if needsJq && env.jqAvailable then
    if env.jqIsAuth then
      match env.jqFetch1 with
      | .ok rows => (rows, ⟨0, 1, some jqFreq, some jqStart⟩)
      | .error _ => ([], ⟨0, 1, some jqFreq, some jqStart⟩)
    else if cr then
      if env.jqAuthOk then
        match env.jqFetch1 with
        | .ok rows => (rows, ⟨1, 1, some jqFreq, some jqStart⟩)
        | .error _ => ([], ⟨1, 1, some jqFreq, some jqStart⟩)
      else ([], ⟨1, 0, none, none⟩)
    else ([], ⟨0, 0, none, none⟩)
  else ([], ⟨0, 0, none, none⟩)

/-- The live frame and trace of the request. -/
def jqResultOf (env : HybridEnv) (p : PriceRequest) : List Bar × JqTrace :=
  jqPhase env (hasCreds p) (gapOf env p).1 (gapOf env p).2 (jqMappedFreq (effFrequency p))

/-- Phase 3 (main.py lines 550-562): merge when both frames are non-empty,
otherwise pass the surviving frame through, choosing the source label. -/
def fusionStep (bqRows jqRows : List Bar) (label1 : String) (freq : String) :
    List Bar × String :=
  if bqRows ≠ [] ∧ jqRows ≠ [] then
    (mergeBqJq bqRows jqRows, "Hybrid (BQ " ++ bqLabelSuffix freq ++ " + JQ)")
  else if bqRows ≠ [] then (bqRows, label1)
  else if jqRows ≠ [] then (jqRows, "JQData (Live Only)")
  else ([], label1)

/-- The response body of `/api/market/hybrid-price`. -/
structure HybridResult where
  success : Bool
  data : List Bar
  source : String
  rows : Nat
  error : Option String
deriving DecidableEq, Repr

/-- The error message of main.py line 565. -/
def noDataMsg : String := "No data found in BQ or JQ for this range."

/-- `get_hybrid_price` (main.py lines 409-574): the whole request
orchestration, returning the response together with the live-feed
side-effect trace. -/
def get_hybrid_price (env : HybridEnv) (p : PriceRequest) : HybridResult × JqTrace :=
  let bqRows := bqRowsOf env p
  let jqRes := jqResultOf env p
  let fused := fusionStep bqRows jqRes.1 (phase1Label bqRows (effFrequency p)) (effFrequency p)
  (if fused.1 = [] then
    { success := false, data := [], source := "", rows := 0, error := some noDataMsg }
   else
    { success := true, data := fused.1, source := fused.2, rows := fused.1.length,
      error := none },
   jqRes.2)

/-- Process-wide `GLOBAL_STATE` (main.py lines 66-73). The BigQuery client
handle is modelled as a numeric token. -/
structure ConnState where
  gee_ready : Bool
  gee_error : Option String
  bq_ready : Bool
  bq_client : Option Nat
  active_project : Option String
  jq_ready : Bool
deriving DecidableEq, Repr

/-- A hot-swap credential payload: whether
`Credentials.from_service_account_info` accepts it, and its
`project_id` entry. -/
structure CredsPayload where
  wellFormed : Bool
  projectId : Option String
deriving DecidableEq, Repr

/-- External world of `attempt_cloud_connection`: the lower credential
resolution tiers and the outcomes of the backend client constructors. -/
structure CloudEnv where
  envVarSet : Bool
  envVarValidJson : Bool
  envVarCredsOk : Bool
  envVarProject : Option String
  fileExists : Bool
  fileLoadOk : Bool
  fileProject : Option String
  defaultAuthOk : Bool
  defaultProject : Option String
  geeImported : Bool
  geeInitOk : Bool
  geeInitErrMsg : String
  bigqueryAvailable : Bool
  bqClientOk : Bool
  bqClientHandle : Nat
deriving DecidableEq, Repr

/-- Outcome of Step 1 of `attempt_cloud_connection` (main.py lines 88-123). -/
inductive CredResolution
  | raised
  | envVarBadJson
  | noCreds
  | creds (project : Option String)
deriving DecidableEq, Repr

/-- Step 1: resolve credentials down the four tiers. `raised` models an
exception escaping to the outer handler (malformed hot-swap payload, or a
valid-JSON env var rejected by the credential constructor);
`envVarBadJson` is the `json.JSONDecodeError` branch that records an error
message and returns `False`; `noCreds` covers the tiers whose local
failure is only logged, leaving `credentials = None`. -/
def resolveCredentials (env : CloudEnv) (credsJson : Option CredsPayload) : CredResolution :=
  match credsJson with
  | some j => if j.wellFormed then .creds j.projectId else .raised
  | none =>
    if env.envVarSet then
      if !env.envVarValidJson then .envVarBadJson
      else if !env.envVarCredsOk then .raised
      else .creds env.envVarProject
    else if env.fileExists then
      (if env.fileLoadOk then .creds env.fileProject else .noCreds)
    else
      (if env.defaultAuthOk then .creds env.defaultProject else .noCreds)

/-- Steps 2 and 3 (main.py lines 125-149), run only when credentials
resolved: each backend is initialized independently, each mutating only
its own fields of the state. A GEE failure records `gee_error` and leaves
`gee_ready` as it was; a BigQuery constructor failure sets
`bq_ready := false` and leaves the stale `bq_client` handle in place. -/
def initBackends (env : CloudEnv) (st : ConnState) (project : Option String) : ConnState :=
  let st1 :=
    if env.geeImported then
      (if env.geeInitOk then
        { st with gee_ready := true, gee_error := none, active_project := project }
       else { st with gee_error := some env.geeInitErrMsg })
    else st
  if env.bigqueryAvailable then
    (if env.bqClientOk then
      { st1 with bq_client := some env.bqClientHandle, bq_ready := true,
                 active_project := project }
     else { st1 with bq_ready := false })
  else st1

/-- `attempt_cloud_connection` (main.py lines 78-158): returns the new global
state and the boolean result. -/
def attempt_cloud_connection (env : CloudEnv) (st : ConnState)
    (credsJson : Option CredsPayload) : ConnState × Bool :=
  match resolveCredentials env credsJson with
  | .raised => (st, false)
  | .envVarBadJson =>
    ({ st with gee_error := some "GEE_SERVICE_ACCOUNT is not valid JSON." }, false)
  | .noCreds => (st, true)
  | .creds project => (initBackends env st project, true)

/-- Response body of `/api/gee/status`. -/
structure StatusResponse where
  success : Bool
  status : String
  error : Option String
  project : Option String
  credentials_loaded : Bool
deriving DecidableEq, Repr

/-- The tail of `check_gee_status` after any hot swap (main.py lines
249-262): readiness gate, then the `ee.Number(1).getInfo()` ping whose
outcome is `eePingOk`. -/
def geeStatusTail (st : ConnState) (eePingOk : Bool) (loaded : Bool) :
    ConnState × StatusResponse :=
  if !st.gee_ready then
    (st, { success := false, status := "NOT_CONFIGURED", error := st.gee_error,
           project := none, credentials_loaded := loaded })
  else if eePingOk then
    (st, { success := true, status := "ONLINE", error := none,
           project := st.active_project, credentials_loaded := loaded })
  else
    (st, { success := false, status := "ERROR", error := some "ee ping failed",
           project := none, credentials_loaded := loaded })

/-- `check_gee_status` (main.py lines 237-262): an attached credential
payload triggers a hot swap; a failed swap answers `AUTH_FAILED`
immediately. -/
def check_gee_status (env : CloudEnv) (st : ConnState) (creds : Option CredsPayload)
    (eePingOk : Bool) : ConnState × StatusResponse :=
  match creds with
  | some j =>
    let r := attempt_cloud_connection env st (some j)
    if r.2 then geeStatusTail r.1 eePingOk true
    else (r.1, { success := false, status := "AUTH_FAILED", error := some "Creds rejected",
                 project := none, credentials_loaded := false })
  | none => geeStatusTail st eePingOk false

/-- Date keys of a frame. -/
abbrev datesOf (l : List Bar) : List Chars := l.map (·.date)

theorem mem_of_mem_dropDuplicatesKeepLast {l : List Bar} {r : Bar}
    (h : r ∈ dropDuplicatesKeepLast l) : r ∈ l := by
  induction l with
  | nil => simp [dropDuplicatesKeepLast] at h
  | cons a as ih =>
    rw [dropDuplicatesKeepLast] at h
    by_cases hc : as.any (fun x => decide (x.date = a.date))
    · rw [if_pos hc] at h
      exact List.mem_cons_of_mem a (ih h)
    · rw [if_neg hc] at h
      rcases List.mem_cons.mp h with h1 | h2
      · exact h1 ▸ List.mem_cons_self a as
      · exact List.mem_cons_of_mem a (ih h2)

theorem dates_dropDuplicatesKeepLast {l : List Bar} {d : Chars} :
    d ∈ datesOf (dropDuplicatesKeepLast l) ↔ d ∈ datesOf l := by
  induction l with
  | nil => simp [dropDuplicatesKeepLast, datesOf]
  | cons a as ih =>
    rw [dropDuplicatesKeepLast]
    by_cases hc : as.any (fun x => decide (x.date = a.date))
    · rw [if_pos hc]
      rcases List.any_eq_true.mp hc with ⟨x, hx, hxd⟩
      have hxd : x.date = a.date := of_decide_eq_true hxd
      constructor
      · intro h
        exact List.mem_cons_of_mem _ (ih.mp h)
      · intro h
        rcases List.mem_cons.mp h with h1 | h2
        · refine ih.mpr ?_
          have h1b : d = a.date := h1
          rw [h1b, ← hxd]
          exact List.mem_map_of_mem (·.date) hx
        · exact ih.mpr h2
    · rw [if_neg hc]
      show d ∈ datesOf (a :: dropDuplicatesKeepLast as) ↔ _
      simp only [datesOf, List.map_cons, List.mem_cons]
      constructor
      · rintro (h1 | h2)
        · exact Or.inl h1
        · exact Or.inr (ih.mp h2)
      · rintro (h1 | h2)
        · exact Or.inl h1
        · exact Or.inr (ih.mpr h2)

theorem nodup_dates_dropDuplicatesKeepLast (l : List Bar) :
    (datesOf (dropDuplicatesKeepLast l)).Nodup := by
  induction l with
  | nil => simp [dropDuplicatesKeepLast, datesOf]
  | cons a as ih =>
    rw [dropDuplicatesKeepLast]
    by_cases hc : as.any (fun x => decide (x.date = a.date))
    · rwa [if_pos hc]
    · rw [if_neg hc]
      show (datesOf (a :: dropDuplicatesKeepLast as)).Nodup
      simp only [datesOf, List.map_cons, List.nodup_cons]
      refine ⟨fun hmem => ?_, ih⟩
      have hmem2 : a.date ∈ datesOf as := dates_dropDuplicatesKeepLast.mp hmem
      rcases List.mem_map.mp hmem2 with ⟨x, hx, hxd⟩
      exact (List.any_eq_true.not.mp hc) ⟨x, hx, decide_eq_true hxd⟩

theorem dropDuplicatesKeepLast_keeps_live {bqRows jqRows : List Bar} {r : Bar}
    (h : r ∈ dropDuplicatesKeepLast (bqRows ++ jqRows))
    (hd : r.date ∈ datesOf jqRows) : r ∈ jqRows := by
  induction bqRows with
  | nil => exact mem_of_mem_dropDuplicatesKeepLast (by simpa using h)
  | cons b bs ih =>
    rw [List.cons_append, dropDuplicatesKeepLast] at h
    by_cases hc : (bs ++ jqRows).any (fun x => decide (x.date = b.date))
    · rw [if_pos hc] at h
      exact ih h
    · rw [if_neg hc] at h
      rcases List.mem_cons.mp h with h1 | h2
      · exfalso
        subst h1
        rcases List.mem_map.mp hd with ⟨x, hx, hxd⟩
        exact (List.any_eq_true.not.mp hc)
          ⟨x, List.mem_append_right bs hx, decide_eq_true hxd⟩
      · exact ih h2

theorem mergeBqJq_perm (bqRows jqRows : List Bar) :
    (mergeBqJq bqRows jqRows).Perm (dropDuplicatesKeepLast (bqRows ++ jqRows)) :=
  List.perm_insertionSort barDateLe _

theorem mergeBqJq_sorted (bqRows jqRows : List Bar) :
    List.Sorted barDateLe (mergeBqJq bqRows jqRows) :=
  List.sorted_insertionSort barDateLe _

theorem mergeBqJq_perm_dates (bqRows jqRows : List Bar) :
    (datesOf (mergeBqJq bqRows jqRows)).Perm
      (datesOf (dropDuplicatesKeepLast (bqRows ++ jqRows))) :=
  (mergeBqJq_perm bqRows jqRows).map (·.date)

theorem mergeBqJq_nodup_dates (bqRows jqRows : List Bar) :
    (datesOf (mergeBqJq bqRows jqRows)).Nodup :=
  (mergeBqJq_perm_dates bqRows jqRows).nodup_iff.mpr
    (nodup_dates_dropDuplicatesKeepLast _)

theorem mergeBqJq_dates (bqRows jqRows : List Bar) (d : Chars) :
    d ∈ datesOf (mergeBqJq bqRows jqRows) ↔ d ∈ datesOf bqRows ∨ d ∈ datesOf jqRows := by
  rw [(mergeBqJq_perm_dates bqRows jqRows).mem_iff, dates_dropDuplicatesKeepLast]
  simp [datesOf]

theorem mergeBqJq_subset {bqRows jqRows : List Bar} {r : Bar}
    (h : r ∈ mergeBqJq bqRows jqRows) : r ∈ bqRows ++ jqRows :=
  mem_of_mem_dropDuplicatesKeepLast ((mergeBqJq_perm bqRows jqRows).mem_iff.mp h)

theorem mergeBqJq_keeps_live {bqRows jqRows : List Bar} {r : Bar}
    (h : r ∈ mergeBqJq bqRows jqRows) (hd : r.date ∈ datesOf jqRows) : r ∈ jqRows :=
  dropDuplicatesKeepLast_keeps_live ((mergeBqJq_perm bqRows jqRows).mem_iff.mp h) hd

theorem computeGap_nil (s e : Chars) : computeGap [] s e = (true, s) := rfl

theorem computeGap_covered {rows : List Bar} {last : Bar} {e : Chars} {dL dE : Date}
    (h : rows.getLast? = some last) (h1 : parseLastDate last.date = some dL)
    (h2 : parseDateOnly e = some dE) (h3 : dateLe dE dL = true) (s : Chars) :
    computeGap rows s e = (false, s) := by
  simp [computeGap, h, h1, h2, h3]

theorem computeGap_gap {rows : List Bar} {last : Bar} {e : Chars} {dL dE : Date}
    (h : rows.getLast? = some last) (h1 : parseLastDate last.date = some dL)
    (h2 : parseDateOnly e = some dE) (h3 : dateLe dE dL = false) (s : Chars) :
    computeGap rows s e = (true, formatDate (addOneDay dL)) := by
  simp [computeGap, h, h1, h2, h3]

theorem computeGap_bad_last {rows : List Bar} {last : Bar} {e : Chars}
    (h : rows.getLast? = some last) (h1 : parseLastDate last.date = none) (s : Chars) :
    computeGap rows s e = (true, s) := by
  rcases hE : parseDateOnly e with _ | dE <;> simp [computeGap, h, h1, hE]

theorem computeGap_bad_end {rows : List Bar} {last : Bar} {e : Chars}
    (h : rows.getLast? = some last) (h2 : parseDateOnly e = none) (s : Chars) :
    computeGap rows s e = (true, s) := by
  rcases hL : parseLastDate last.date with _ | dL <;> simp [computeGap, h, hL, h2]

/-- Does the archive frame already reach the requested end date? This is the
condition under which main.py line 520 sets `needs_jq = False`. -/
def coversRequestedEnd (rows : List Bar) (e : Chars) : Bool :=
  match rows.getLast? with
  | none => false
  | some last =>
    match parseLastDate last.date, parseDateOnly e with
    | some dL, some dE => dateLe dE dL
    | _, _ => false

theorem computeGap_of_covers {rows : List Bar} {e : Chars}
    (h : coversRequestedEnd rows e = true) (s : Chars) :
    computeGap rows s e = (false, s) := by
  rcases hl : rows.getLast? with _ | last
  · simp [coversRequestedEnd, hl] at h
  · rcases hL : parseLastDate last.date with _ | dL
    · simp [coversRequestedEnd, hl, hL] at h
    · rcases hE : parseDateOnly e with _ | dE
      · simp [coversRequestedEnd, hl, hL, hE] at h
      · simp only [coversRequestedEnd, hl, hL, hE] at h
        exact computeGap_covered hl hL hE h s

theorem covers_ne_nil {rows : List Bar} {e : Chars}
    (h : coversRequestedEnd rows e = true) : rows ≠ [] := by
  intro h0
  subst h0
  exact absurd h (by simp [coversRequestedEnd])

/-- C3: gap computation. Empty archive rows give the full-range gap; a last
archive row whose calendar date reaches the requested end date gives no
gap; otherwise the fill start is the last archive date plus one day; a
parse failure of either date degrades to the full gap. The closed
instances exercise both tolerated date formats, the worked examples of the
specification, and the degradation case. -/
theorem gap_detection_spec :
    (∀ s e, computeGap [] s e = (true, s)) ∧
    (∀ (rows : List Bar) (last : Bar) (s e : Chars) (dL dE : Date),
      rows.getLast? = some last → parseLastDate last.date = some dL →
      parseDateOnly e = some dE →
      (dateLe dE dL = true → computeGap rows s e = (false, s)) ∧
      (dateLe dE dL = false →
        computeGap rows s e = (true, formatDate (addOneDay dL)))) ∧
    (∀ (rows : List Bar) (last : Bar) (s e : Chars),
      rows.getLast? = some last → parseLastDate last.date = none →
      computeGap rows s e = (true, s)) ∧
    (∀ (rows : List Bar) (last : Bar) (s e : Chars),
      rows.getLast? = some last → parseDateOnly e = none →
      computeGap rows s e = (true, s)) ∧
    (computeGap [⟨str "2024-01-10", 1, 1, 1, 1, 0⟩] (str "2024-01-01") (str "2024-01-20")
        = (true, str "2024-01-11") ∧
      computeGap [⟨str "2024-01-10 14:30:00", 1, 1, 1, 1, 0⟩] (str "2024-01-01")
          (str "2024-01-20")
        = (true, str "2024-01-11") ∧
      computeGap [⟨str "2024-01-20", 1, 1, 1, 1, 0⟩] (str "2024-01-01") (str "2024-01-20")
        = (false, str "2024-01-01") ∧
      computeGap [⟨str "not-a-date", 1, 1, 1, 1, 0⟩] (str "2024-01-01") (str "2024-01-20")
        = (true, str "2024-01-01")) := by
  refine ⟨computeGap_nil, ?_, ?_, ?_, by decide, by decide, by decide, by decide⟩
  · intro rows last s e dL dE h h1 h2
    exact ⟨fun h3 => computeGap_covered h h1 h2 h3 s, fun h3 => computeGap_gap h h1 h2 h3 s⟩
  · intro rows last s e h h1
    exact computeGap_bad_last h h1 s
  · intro rows last s e h h2
    exact computeGap_bad_end h h2 s

/-- Witness for C3 at a concrete input: the no-gap branch at equal dates. -/
theorem gap_detection_witness :
    computeGap [⟨str "2024-01-20", 1, 1, 1, 1, 0⟩] (str "2024-01-01") (str "2024-01-20")
      = (false, str "2024-01-01") :=
  (gap_detection_spec.2.1 [⟨str "2024-01-20", 1, 1, 1, 1, 0⟩]
      ⟨str "2024-01-20", 1, 1, 1, 1, 0⟩ (str "2024-01-01") (str "2024-01-20")
      ⟨2024, 1, 20⟩ ⟨2024, 1, 20⟩ rfl (by decide) (by decide)).1 (by decide)

/-- C5: the merge of two frames is sorted ascending by date key, has no
duplicate date keys, covers exactly the union of the input date keys,
draws every row from one of the inputs, and keeps a live row whenever the
live frame carries the date; the worked example keeps the live row with
close 11 for the shared date. -/
theorem hybrid_merge_freshness_spec :
    (∀ bqRows jqRows : List Bar,
      List.Sorted barDateLe (mergeBqJq bqRows jqRows) ∧
      (datesOf (mergeBqJq bqRows jqRows)).Nodup ∧
      (∀ d, d ∈ datesOf (mergeBqJq bqRows jqRows) ↔
        d ∈ datesOf bqRows ∨ d ∈ datesOf jqRows) ∧
      (∀ r, r ∈ mergeBqJq bqRows jqRows → r ∈ bqRows ++ jqRows) ∧
      (∀ r, r ∈ mergeBqJq bqRows jqRows → r.date ∈ datesOf jqRows → r ∈ jqRows)) ∧
    mergeBqJq [⟨str "2024-01-05", 10, 10, 10, 10, 0⟩]
        [⟨str "2024-01-05", 11, 11, 11, 11, 0⟩]
      = [⟨str "2024-01-05", 11, 11, 11, 11, 0⟩] :=
  ⟨fun bqRows jqRows =>
    ⟨mergeBqJq_sorted bqRows jqRows, mergeBqJq_nodup_dates bqRows jqRows,
      mergeBqJq_dates bqRows jqRows, fun _ h => mergeBqJq_subset h,
      fun _ h hd => mergeBqJq_keeps_live h hd⟩, by decide⟩

/-- Witness for C5: the live-preference implication applied at the worked
example. -/
theorem hybrid_merge_freshness_witness :
    (⟨str "2024-01-05", 11, 11, 11, 11, 0⟩ : Bar) ∈
      ([⟨str "2024-01-05", 11, 11, 11, 11, 0⟩] : List Bar) :=
  (hybrid_merge_freshness_spec.1 [⟨str "2024-01-05", 10, 10, 10, 10, 0⟩]
      [⟨str "2024-01-05", 11, 11, 11, 11, 0⟩]).2.2.2.2
    ⟨str "2024-01-05", 11, 11, 11, 11, 0⟩ (by decide) (by decide)

/-- C6: merging the same pair twice yields identical output (the merge is a
pure function of its inputs), and every merged output has pairwise
distinct date keys and is sorted ascending by date key. -/
theorem hybrid_merge_idempotent_sorted (bqRows jqRows : List Bar) :
    mergeBqJq bqRows jqRows = mergeBqJq bqRows jqRows ∧
    (datesOf (mergeBqJq bqRows jqRows)).Nodup ∧
    List.Sorted barDateLe (mergeBqJq bqRows jqRows) :=
  ⟨rfl, mergeBqJq_nodup_dates bqRows jqRows, mergeBqJq_sorted bqRows jqRows⟩

theorem get_hybrid_price_cases (env : HybridEnv) (p : PriceRequest) :
    get_hybrid_price env p =
      ((if (fusionStep (bqRowsOf env p) (jqResultOf env p).1
            (phase1Label (bqRowsOf env p) (effFrequency p)) (effFrequency p)).1 = [] then
          { success := false, data := [], source := "", rows := 0, error := some noDataMsg }
        else
          { success := true
            data := (fusionStep (bqRowsOf env p) (jqResultOf env p).1
              (phase1Label (bqRowsOf env p) (effFrequency p)) (effFrequency p)).1
            source := (fusionStep (bqRowsOf env p) (jqResultOf env p).1
              (phase1Label (bqRowsOf env p) (effFrequency p)) (effFrequency p)).2
            rows := (fusionStep (bqRowsOf env p) (jqResultOf env p).1
              (phase1Label (bqRowsOf env p) (effFrequency p)) (effFrequency p)).1.length
            error := none }),
       (jqResultOf env p).2) := rfl

theorem jqPhase_not_needed (env : HybridEnv) (cr : Bool) (js : Chars) (f : String) :
    jqPhase env cr false js f = ([], ⟨0, 0, none, none⟩) := rfl

theorem jqPhase_fetch1_error {env : HybridEnv} {msg : String}
    (h : env.jqFetch1 = .error msg) (cr needsJq : Bool) (js : Chars) (f : String) :
    (jqPhase env cr needsJq js f).1 = [] ∧
    (jqPhase env cr needsJq js f).2.fetchCalls ≤ 1 ∧
    (jqPhase env cr needsJq js f).2.authCalls ≤ 1 := by
  unfold jqPhase
  rw [h]
  split_ifs <;> simp

theorem jqPhase_no_session_no_creds {env : HybridEnv} (hs : env.jqIsAuth = false)
    (needsJq : Bool) (js : Chars) (f : String) :
    jqPhase env false needsJq js f = ([], ⟨0, 0, none, none⟩) := by
  unfold jqPhase
  rw [hs]
  split_ifs <;> simp_all

theorem jqPhase_fetchFreq (env : HybridEnv) (cr needsJq : Bool) (js : Chars) (f : String) :
    (jqPhase env cr needsJq js f).2.fetchFreq = none ∨
    (jqPhase env cr needsJq js f).2.fetchFreq = some f := by
  unfold jqPhase
  cases hf : env.jqFetch1 <;> split_ifs <;> simp [hf]

theorem fusionStep_bq_only {bqRows : List Bar} (h : bqRows ≠ []) (l f : String) :
    fusionStep bqRows [] l f = (bqRows, l) := by
  simp [fusionStep, h]

theorem fusionStep_jq_empty (bqRows : List Bar) (l f : String) :
    fusionStep bqRows [] l f = (bqRows, l) := by
  rcases bqRows with _ | ⟨b, bs⟩
  · simp [fusionStep]
  · exact fusionStep_bq_only (by simp) l f

/-- C4: when the archive frame reaches the requested end date, the live feed
is never touched (no auth call, no fetch call) and the response is
successful with the archive-only source label. -/
theorem archive_covers_skips_live (env : HybridEnv) (p : PriceRequest)
    (hcov : coversRequestedEnd (bqRowsOf env p) (reqEnd env p) = true) :
    (get_hybrid_price env p).2 = ⟨0, 0, none, none⟩ ∧
    (get_hybrid_price env p).1.success = true ∧
    (get_hybrid_price env p).1.source = "BigQuery " ++ bqLabelSuffix (effFrequency p) := by
  have hne := covers_ne_nil hcov
  have hgap : gapOf env p = (false, reqStart env p) := by
    rw [gapOf]
    exact computeGap_of_covers hcov _
  have hjq : jqResultOf env p = ([], ⟨0, 0, none, none⟩) := by
    rw [jqResultOf, hgap]
    exact jqPhase_not_needed env (hasCreds p) _ _
  rw [get_hybrid_price_cases, hjq, fusionStep_jq_empty]
  simp [phase1Label, hne]

/-- Archive content for the C4 witness: one aggregated day reaching the
requested end date. -/
def envCovered : HybridEnv :=
  { bqReady := true, bqThrows := false
    table := [⟨str "C9999.XDCE", 5, str "2024-01-20", str "2024-01-20 09:01:00",
      1, 2, 1, 2, 10⟩]
    tsLo := 0, tsHi := 10
    jqAvailable := true, jqIsAuth := false, jqAuthOk := false
    jqFetch1 := .ok [], jqFetch2 := .ok []
    defaultStart := str "2024-01-01", defaultEnd := str "2024-01-20" }

/-- Request for the C4 witness. -/
def reqCovered : PriceRequest :=
  { username := "u", password := "p", symbol := str "C9999.XDCE", frequency := "daily"
    start_date := some (str "2024-01-01"), end_date := some (str "2024-01-20") }

/-- Witness for C4 at a concrete input. -/
theorem archive_covers_skips_live_witness :
    (get_hybrid_price envCovered reqCovered).2 = ⟨0, 0, none, none⟩ ∧
    (get_hybrid_price envCovered reqCovered).1.success = true ∧
    (get_hybrid_price envCovered reqCovered).1.source
      = "BigQuery " ++ bqLabelSuffix (effFrequency reqCovered) :=
  archive_covers_skips_live envCovered reqCovered (by decide)

/-- Environment in which the first live fetch raises while a second call
would succeed. The source never makes the second call. -/
def envRetry : HybridEnv :=
  { bqReady := false, bqThrows := false, table := [], tsLo := 0, tsHi := 0
    jqAvailable := true, jqIsAuth := true, jqAuthOk := true
    jqFetch1 := .error "network failure on first call"
    jqFetch2 := .ok [⟨str "2024-01-15", 3, 4, 2, 3, 7⟩]
    defaultStart := str "2024-01-01", defaultEnd := str "2024-01-20" }

/-- Request used for the C1 scenario. -/
def reqRetry : PriceRequest :=
  { username := "u", password := "p", symbol := str "C9999.XDCE", frequency := "daily"
    start_date := some (str "2024-01-01"), end_date := some (str "2024-01-20") }

/-- Counterexample to C1: the first live fetch throws and a second call
would succeed, yet the orchestrator performs no re-authentication, makes
exactly one fetch call, and returns a failure with no data instead of the
second call outcome. -/
theorem live_retry_counterexample :
    envRetry.jqFetch1 = Except.error "network failure on first call" ∧
    envRetry.jqFetch2 = Except.ok [⟨str "2024-01-15", 3, 4, 2, 3, 7⟩] ∧
    (get_hybrid_price envRetry reqRetry).2.fetchCalls = 1 ∧
    (get_hybrid_price envRetry reqRetry).2.authCalls = 0 ∧
    (get_hybrid_price envRetry reqRetry).1.success = false ∧
    (get_hybrid_price envRetry reqRetry).1.data = [] :=
  ⟨rfl, rfl, by decide, by decide, by decide, by decide⟩

/-- C1 as amended: a failing first live fetch is caught, never retried and
never followed by a forced re-authentication (at most one fetch call and
at most one auth call happen for any reason); the response degrades to the
archive-only label or to a failure; and the outcome a second fetch call
would produce is never consulted. -/
theorem live_fetch_failure_no_retry (env : HybridEnv) (p : PriceRequest) (msg : String)
    (h : env.jqFetch1 = .error msg) :
    ((get_hybrid_price env p).2.fetchCalls ≤ 1 ∧
      (get_hybrid_price env p).2.authCalls ≤ 1 ∧
      ((get_hybrid_price env p).1.success = false ∨
        (get_hybrid_price env p).1.source
          = "BigQuery " ++ bqLabelSuffix (effFrequency p))) ∧
    (∀ alt, get_hybrid_price { env with jqFetch2 := alt } p = get_hybrid_price env p) := by
  have hjq := jqPhase_fetch1_error h (hasCreds p) (gapOf env p).1 (gapOf env p).2
    (jqMappedFreq (effFrequency p))
  have hjq1 : (jqResultOf env p).1 = [] := hjq.1
  refine ⟨⟨?_, ?_, ?_⟩, fun alt => rfl⟩
  · rw [get_hybrid_price_cases]
    exact hjq.2.1
  · rw [get_hybrid_price_cases]
    exact hjq.2.2
  · rw [get_hybrid_price_cases, hjq1, fusionStep_jq_empty]
    by_cases hne : bqRowsOf env p = []
    · simp [hne]
    · simp [hne, phase1Label]

/-- Witness for C1 as amended, applied at the concrete scenario. -/
theorem live_fetch_failure_no_retry_witness :
    (get_hybrid_price envRetry reqRetry).2.fetchCalls ≤ 1 ∧
    (get_hybrid_price envRetry reqRetry).2.authCalls ≤ 1 ∧
    ((get_hybrid_price envRetry reqRetry).1.success = false ∨
      (get_hybrid_price envRetry reqRetry).1.source
        = "BigQuery " ++ bqLabelSuffix (effFrequency reqRetry)) :=
  (live_fetch_failure_no_retry envRetry reqRetry "network failure on first call" rfl).1

/-- Environment with no live session and an empty warehouse. -/
def envNoCreds : HybridEnv :=
  { bqReady := false, bqThrows := false, table := [], tsLo := 0, tsHi := 0
    jqAvailable := true, jqIsAuth := false, jqAuthOk := false
    jqFetch1 := .ok [⟨str "2024-01-15", 3, 4, 2, 3, 7⟩], jqFetch2 := .ok []
    defaultStart := str "2024-01-01", defaultEnd := str "2024-01-20" }

/-- Environment with no live session and a warehouse covering only part of
the requested range. -/
def envNoCredsGap : HybridEnv :=
  { bqReady := true, bqThrows := false
    table := [⟨str "C9999.XDCE", 5, str "2024-01-20", str "2024-01-20 09:01:00",
      1, 2, 1, 2, 10⟩]
    tsLo := 0, tsHi := 10
    jqAvailable := true, jqIsAuth := false, jqAuthOk := false
    jqFetch1 := .ok [⟨str "2024-01-22", 3, 4, 2, 3, 7⟩], jqFetch2 := .ok []
    defaultStart := str "2024-01-01", defaultEnd := str "2024-01-25" }

/-- Request carrying no credentials. -/
def reqNoCreds : PriceRequest :=
  { username := "", password := "", symbol := str "C9999.XDCE", frequency := "daily"
    start_date := some (str "2024-01-01"), end_date := some (str "2024-01-25") }

/-- Counterexample to C7: with no credentials and no session the live fetch
is skipped silently (zero auth calls, zero fetch calls); the response is
the generic no-data failure when the archive is also empty, and a fully
silent archive-only success when the archive covers part of the range,
despite the detected gap. No authentication error is raised in either
case. -/
theorem no_creds_counterexample :
    (get_hybrid_price envNoCreds reqNoCreds).2 = ⟨0, 0, none, none⟩ ∧
    (get_hybrid_price envNoCreds reqNoCreds).1.success = false ∧
    (get_hybrid_price envNoCreds reqNoCreds).1.error = some noDataMsg ∧
    (get_hybrid_price envNoCredsGap reqNoCreds).2 = ⟨0, 0, none, none⟩ ∧
    (gapOf envNoCredsGap reqNoCreds).1 = true ∧
    (get_hybrid_price envNoCredsGap reqNoCreds).1.success = true ∧
    (get_hybrid_price envNoCredsGap reqNoCreds).1.error = none ∧
    (get_hybrid_price envNoCredsGap reqNoCreds).1.source = "BigQuery (Aggregated)" :=
  ⟨by decide, by decide, by decide, by decide, by decide, by decide, by decide, by decide⟩

/-- C7 as amended: with no prior session and falsy credentials the live
phase performs no auth call and no fetch call and contributes no rows; the
only failure the request can then report is the generic no-data message,
not an authentication error. -/
theorem no_creds_silent_skip (env : HybridEnv) (p : PriceRequest)
    (hs : env.jqIsAuth = false) (hc : hasCreds p = false) :
    (get_hybrid_price env p).2 = ⟨0, 0, none, none⟩ ∧
    ((get_hybrid_price env p).1.success = false →
      (get_hybrid_price env p).1.error = some noDataMsg) := by
  have hjq : jqResultOf env p = ([], ⟨0, 0, none, none⟩) := by
    rw [jqResultOf, hc]
    exact jqPhase_no_session_no_creds hs _ _ _
  constructor
  · rw [get_hybrid_price_cases, hjq]
  · rw [get_hybrid_price_cases]
    by_cases hfe : (fusionStep (bqRowsOf env p) (jqResultOf env p).1
        (phase1Label (bqRowsOf env p) (effFrequency p)) (effFrequency p)).1 = []
    · simp [hfe]
    · simp [hfe]

/-- Witness for C7 as amended, applied at the concrete scenario. -/
theorem no_creds_silent_skip_witness :
    (get_hybrid_price envNoCreds reqNoCreds).2 = ⟨0, 0, none, none⟩ ∧
    ((get_hybrid_price envNoCreds reqNoCreds).1.success = false →
      (get_hybrid_price envNoCreds reqNoCreds).1.error = some noDataMsg) :=
  no_creds_silent_skip envNoCreds reqNoCreds rfl rfl

/-- C10: a request whose effective frequency is none of daily, 1d, 1m,
minute takes the raw 1-minute archive path while any live fetch made for
the same request is issued at daily granularity. -/
theorem freq_granularity_mismatch (p : PriceRequest)
    (h1 : effFrequency p ≠ "daily") (h2 : effFrequency p ≠ "1d")
    (h3 : effFrequency p ≠ "1m") (h4 : effFrequency p ≠ "minute") :
    bqIsAgg (effFrequency p) = false ∧
    jqMappedFreq (effFrequency p) = "daily" ∧
    (∀ env : HybridEnv, bqRowsOf env p =
      (if env.bqReady && !env.bqThrows then
        rawQuery env.table (rootOf p) env.tsLo env.tsHi
       else [])) ∧
    (∀ env : HybridEnv, (get_hybrid_price env p).2.fetchFreq = none ∨
      (get_hybrid_price env p).2.fetchFreq = some "daily") := by
  have hagg : bqIsAgg (effFrequency p) = false := by
    simp [bqIsAgg, h1, h2]
  have hjqf : jqMappedFreq (effFrequency p) = "daily" := by
    rw [jqMappedFreq, if_neg]
    rintro (h | h)
    · exact h3 h
    · exact h4 h
  refine ⟨hagg, hjqf, fun env => ?_, fun env => ?_⟩
  · rw [bqRowsOf, hagg]
    simp
  · have htr : (get_hybrid_price env p).2
        = (jqPhase env (hasCreds p) (gapOf env p).1 (gapOf env p).2
            (jqMappedFreq (effFrequency p))).2 := rfl
    rw [htr, hjqf]
    exact jqPhase_fetchFreq env (hasCreds p) (gapOf env p).1 (gapOf env p).2 "daily"

/-- Request at the 5-minute frequency of the C10 example. -/
def reqFiveMin : PriceRequest :=
  { username := "u", password := "p", symbol := str "C9999.XDCE", frequency := "5m"
    start_date := some (str "2024-01-01"), end_date := some (str "2024-01-20") }

/-- Witness for C10 at the 5-minute frequency. -/
theorem freq_granularity_mismatch_witness :
    bqIsAgg (effFrequency reqFiveMin) = false ∧
    jqMappedFreq (effFrequency reqFiveMin) = "daily" :=
  ⟨(freq_granularity_mismatch reqFiveMin (by decide) (by decide) (by decide)
      (by decide)).1,
   (freq_granularity_mismatch reqFiveMin (by decide) (by decide) (by decide)
      (by decide)).2.1⟩

theorem startsWithChars_append (p t : Chars) : startsWithChars p (p ++ t) = true := by
  induction p with
  | nil => rfl
  | cons c cs ih => simp [startsWithChars, ih]

theorem containsChars_nil_pat (l : Chars) : containsChars [] l = true := by
  cases l <;> simp [containsChars, startsWithChars]

theorem containsChars_append_self (pat rest : Chars) :
    containsChars pat (pat ++ rest) = true := by
  cases pat with
  | nil => simpa using containsChars_nil_pat rest
  | cons c cs =>
    simp only [containsChars, List.cons_append, Bool.or_eq_true]
    exact Or.inl (startsWithChars_append (c :: cs) rest)

theorem rootSymbol_contains_self (s : Chars) : containsChars (rootSymbol s) s = true := by
  rw [rootSymbol]
  split_ifs with h
  · have h2 := containsChars_append_self (s.takeWhile (fun c => c ≠ '.'))
      (s.dropWhile (fun c => c ≠ '.'))
    rwa [List.takeWhile_append_dropWhile] at h2
  · have h2 := containsChars_append_self s []
    rwa [List.append_nil] at h2

/-- C8 as amended: archive symbol matching is one unconditional substring
tier: a row is selected exactly when the root symbol occurs inside its
contract (and the timestamp is in range), for every query alike; an
exactly matching contract passes this same tier because the root of a
symbol always occurs inside the symbol. There is no separate exact-match
pass and no configuration gating the substring fallback. -/
theorem symbol_match_single_substring_tier :
    (∀ (tbl : List ArchiveRow) (root : Chars) (lo hi : Nat) (r : ArchiveRow),
      r ∈ selectRows tbl root lo hi ↔
        r ∈ tbl ∧ containsChars root r.contract = true ∧ lo ≤ r.ts ∧ r.ts < hi) ∧
    (∀ s : Chars, containsChars (rootSymbol s) s = true) := by
  refine ⟨fun tbl root lo hi r => ?_, rootSymbol_contains_self⟩
  simp [selectRows, List.mem_filter, rowSelected, and_assoc]

/-- Warehouse content with one exactly matching contract and one
drifted-suffix contract sharing the root. -/
def tblDrift : List ArchiveRow :=
  [⟨str "C9999.XDCE", 1, str "2024-01-10", str "2024-01-10 09:01:00", 1, 1, 1, 1, 1⟩,
   ⟨str "XC9999Y.XZCE", 2, str "2024-01-10", str "2024-01-10 09:02:00", 2, 2, 2, 2, 2⟩]

/-- Counterexample to C8: the query built for the exact symbol C9999.XDCE
admits, through the one default substring filter, a different contract
whose name merely contains the root; no opt-in tier or configuration is
consulted, and the exactly matching row receives no preference. -/
theorem symbol_match_counterexample :
    rootSymbol (normalize_bq_symbol (str "C9999.XDCE")) = str "C9999" ∧
    selectRows tblDrift (rootSymbol (normalize_bq_symbol (str "C9999.XDCE"))) 0 10
      = tblDrift ∧
    str "XC9999Y.XZCE" ≠ str "C9999.XDCE" :=
  ⟨by decide, by decide, by decide⟩

/-- Warehouse content with two distinct contracts trading on the same
calendar date. -/
def tblBlend : List ArchiveRow :=
  [⟨str "A1.X", 1, str "2024-01-10", str "2024-01-10 09:01:00", 5, 9, 4, 6, 100⟩,
   ⟨str "B2.Y", 2, str "2024-01-10", str "2024-01-10 09:02:00", 6, 12, 3, 7, 50⟩]

/-- Environment for the blank-symbol request. -/
def envBlend : HybridEnv :=
  { bqReady := true, bqThrows := false, table := tblBlend, tsLo := 0, tsHi := 10
    jqAvailable := false, jqIsAuth := false, jqAuthOk := false
    jqFetch1 := .ok [], jqFetch2 := .ok []
    defaultStart := str "2024-01-01", defaultEnd := str "2024-01-10" }

/-- A request whose symbol is only whitespace. -/
def reqBlank : PriceRequest :=
  { username := "", password := "", symbol := str "   ", frequency := "daily"
    start_date := some (str "2024-01-01"), end_date := some (str "2024-01-10") }

/-- C9: a symbol that is empty or whitespace-only normalizes to the empty
string, its root is empty, the contract filter then accepts every
contract, and every in-range row of the table is selected; the request is
not rejected: concretely, the blank-symbol request over a table holding
two different contracts on one date succeeds and blends both contracts
into a single aggregated row. -/
theorem empty_symbol_matches_everything :
    (∀ s : Chars, (∀ c ∈ s, isPySpace c = true) →
      normalize_bq_symbol s = [] ∧
      rootSymbol (normalize_bq_symbol s) = [] ∧
      (∀ contract, containsChars (rootSymbol (normalize_bq_symbol s)) contract = true) ∧
      (∀ (tbl : List ArchiveRow) (lo hi : Nat) (r : ArchiveRow),
        r ∈ tbl → lo ≤ r.ts → r.ts < hi →
        r ∈ selectRows tbl (rootSymbol (normalize_bq_symbol s)) lo hi)) ∧
    ((get_hybrid_price envBlend reqBlank).1.success = true ∧
      (get_hybrid_price envBlend reqBlank).1.rows = 1 ∧
      (get_hybrid_price envBlend reqBlank).1.data
        = [⟨str "2024-01-10", 5, 12, 3, 7, 150⟩] ∧
      (get_hybrid_price envBlend reqBlank).1.source = "BigQuery (Aggregated)" ∧
      tblBlend.length = 2 ∧
      (tblBlend.map (·.contract)).Nodup) := by
  refine ⟨fun s hws => ?_, by decide, by decide, by decide, by decide, by decide, by decide⟩
  have hn : normalize_bq_symbol s = [] := by
    rcases s with _ | ⟨c, cs⟩
    · rfl
    · rw [normalize_bq_symbol, if_neg (by simp)]
      rw [pyStrip]
      have h1 : (c :: cs).dropWhile isPySpace = [] :=
        List.dropWhile_eq_nil_iff.mpr (fun x hx => hws x hx)
      rw [h1]
      rfl
  refine ⟨hn, by rw [hn]; rfl, fun contract => ?_, fun tbl lo hi r hr hlo hhi => ?_⟩
  · rw [hn]
    exact containsChars_nil_pat contract
  · rw [hn]
    refine List.mem_filter.mpr ⟨hr, ?_⟩
    have hc : containsChars (rootSymbol []) r.contract = true := containsChars_nil_pat _
    simp [rowSelected, hc, hlo, hhi]

/-- Witness for C9 at a concrete whitespace symbol. -/
theorem empty_symbol_matches_everything_witness :
    normalize_bq_symbol (str "   ") = [] :=
  (empty_symbol_matches_everything.1 (str "   ") (by decide)).1

/-- C2 as amended: a hot-swap payload rejected by the credential
constructor raises before any state mutation, so the whole prior
connection state survives unchanged and the caller receives the
AUTH_FAILED response. (State replacement is not wholesale in general: see
the counterexample, where a later per-backend failure patches single
fields.) -/
theorem malformed_hotswap_preserves_state (env : CloudEnv) (st : ConnState)
    (j : CredsPayload) (eePingOk : Bool) (h : j.wellFormed = false) :
    attempt_cloud_connection env st (some j) = (st, false) ∧
    check_gee_status env st (some j) eePingOk =
      (st, { success := false, status := "AUTH_FAILED", error := some "Creds rejected",
             project := none, credentials_loaded := false }) := by
  have hres : resolveCredentials env (some j) = .raised := by
    simp [resolveCredentials, h]
  have h1 : attempt_cloud_connection env st (some j) = (st, false) := by
    rw [attempt_cloud_connection, hres]
  exact ⟨h1, by simp [check_gee_status, h1]⟩

/-- Cloud environment in which GEE initialization fails while the BigQuery
client constructor succeeds. -/
def envGeeFails : CloudEnv :=
  { envVarSet := false, envVarValidJson := false, envVarCredsOk := false
    envVarProject := none, fileExists := false, fileLoadOk := false, fileProject := none
    defaultAuthOk := false, defaultProject := none
    geeImported := true, geeInitOk := false, geeInitErrMsg := "gee quota exceeded"
    bigqueryAvailable := true, bqClientOk := true, bqClientHandle := 2 }

/-- A well-formed hot-swap payload. -/
def credsGood : CredsPayload := { wellFormed := true, projectId := some "p1" }

/-- A malformed hot-swap payload. -/
def credsBad : CredsPayload := { wellFormed := false, projectId := some "p1" }

/-- A fully connected prior state. -/
def stReadyA : ConnState :=
  { gee_ready := true, gee_error := none, bq_ready := true, bq_client := some 1
    active_project := some "p0", jq_ready := true }

/-- The same prior state with the GEE flag cleared. -/
def stReadyB : ConnState := { stReadyA with gee_ready := false }

/-- Counterexample to the wholesale-replacement clause of C2: a valid
hot-swap whose GEE initialization fails patches gee_error, bq_client and
active_project while gee_ready keeps its pre-call value (the two runs
from states differing only in gee_ready still differ in gee_ready
afterwards), so an invocation updates the state incrementally per field
rather than replacing it wholesale. -/
theorem hotswap_wholesale_replace_counterexample :
    (attempt_cloud_connection envGeeFails stReadyA (some credsGood)).1 =
      { gee_ready := true, gee_error := some "gee quota exceeded", bq_ready := true,
        bq_client := some 2, active_project := some "p1", jq_ready := true } ∧
    (attempt_cloud_connection envGeeFails stReadyB (some credsGood)).1.gee_ready = false ∧
    (attempt_cloud_connection envGeeFails stReadyA (some credsGood)).1.gee_ready = true ∧
    (attempt_cloud_connection envGeeFails stReadyA (some credsGood)).1 ≠ stReadyA :=
  ⟨by decide, by decide, by decide, by decide⟩

/-- Witness for C2 as amended, at a concrete malformed payload. -/
theorem malformed_hotswap_preserves_state_witness :
    attempt_cloud_connection envGeeFails stReadyA (some credsBad) = (stReadyA, false) ∧
    check_gee_status envGeeFails stReadyA (some credsBad) true =
      (stReadyA,
        { success := false, status := "AUTH_FAILED", error := some "Creds rejected",
          project := none, credentials_loaded := false }) :=
  malformed_hotswap_preserves_state envGeeFails stReadyA credsBad true rfl

end QuantAgrify
